import Mathlib

/-!
Verification of the incident-backend service (FastAPI application under
`src/app`): a shallow embedding of `models.py`, `store.py`, `processor.py`,
`websocket_manager.py` and the relevant handlers of `main.py`, together with
theorems settling the specification claims.

Modelling conventions:
* Python dicts become association lists `List (Nat × _)` with `List.lookup`;
  in-place mutation becomes functional update (`setKey` / `delKey`).
* Python sets of websocket connections become duplicate-free `List Nat`
  (connections are identified by numeric ids); `set.discard` removes every
  occurrence.
* `uuid4()` event ids and `utc_now()` timestamps are nondeterministic inputs:
  fresh event ids are taken as explicit `String` parameters, timestamps are
  not modelled (no claim mentions them).
* Exceptions (`KeyError`) become an `Except` result paired with the resulting
  store state, so that "state unchanged on failure" is expressible.
* A central point of the Python source: `IncidentStatus` is declared as
  `class IncidentStatus(str, Enum)`. For such a mixed-in enum, CPython gives
  `str(member) = "ClassName.membername"`, NOT the member value (only
  `enum.StrEnum`, which this code does not use, returns the bare value).
  The source compares `str(inc.status) == "resolved"` in three places; the
  embedding models this faithfully via `IncidentStatus.pyStr`.
-/

namespace IncidentBackend

/-! ## models.py -/

inductive Severity
  | P1
  | P2
  | P3
deriving DecidableEq

inductive IncidentStatus
  | investigating
  | monitoring
  | resolved
deriving DecidableEq

/-- Python `str()` of a `(str, Enum)` member: `"IncidentStatus.<name>"`.
This models the expression `str(inc.status)` appearing in `processor.py`
(worker_loop) and `main.py` (update_incident_status, incident_room_ws). -/
def IncidentStatus.pyStr : IncidentStatus → String
  | .investigating => "IncidentStatus.investigating"
  | .monitoring => "IncidentStatus.monitoring"
  | .resolved => "IncidentStatus.resolved"

/-- Python f-string rendering of a `(str, Enum)` `Severity` member
(CPython 3.11+ includes the class name in `format()` of mixed-in enums).
Only used inside the informational creation message; no claim depends on it. -/
def Severity.pyFormat : Severity → String
  | .P1 => "Severity.P1"
  | .P2 => "Severity.P2"
  | .P3 => "Severity.P3"

inductive TimelineEventType
  | human_update
  | status_change
  | ai_tag
  | ai_summary
  | system
deriving DecidableEq

/-- The free-form `payload` dict of a timeline event. Each constructor mirrors
one of the concrete dict shapes built in the source: `message` for
system and human_update events, `statusChange` for the from/to dict of
status_change events, `aiTag` for tags plus source_event_id, and
`aiSummary` for summary text plus source_event_id. -/
inductive Payload
  | message : String → Payload
  | statusChange : IncidentStatus → IncidentStatus → Payload
  | aiTag : List String → String → Payload
  | aiSummary : String → String → Payload
deriving DecidableEq

structure TimelineEvent where
  event_id : String
  incident_id : Nat
  type : TimelineEventType
  payload : Payload
deriving DecidableEq

structure Incident where
  id : Nat
  title : String
  severity : Severity
  status : IncidentStatus := .investigating
  timeline : List TimelineEvent := []
deriving DecidableEq

/-! ## Association-list helpers (Python dict semantics) -/

/-- Dict insertion or overwrite: `d[i] = v`. Replaces the binding of `i`
when present, appends it otherwise. -/
def setKey {β : Type} : List (Nat × β) → Nat → β → List (Nat × β)
  | [], i, v => [(i, v)]
  | (k, w) :: rest, i, v =>
      if k = i then (i, v) :: rest else (k, w) :: setKey rest i v

/-- Dict key deletion: `del d[i]`. Removes every binding of the key, which on
duplicate-free dict representations is exactly the deletion of the unique one. -/
def delKey {β : Type} : List (Nat × β) → Nat → List (Nat × β)
  | [], _ => []
  | (k, w) :: rest, i => if k = i then delKey rest i else (k, w) :: delKey rest i

theorem lookup_cons {β : Type} (k j : Nat) (w : β) (rest : List (Nat × β)) :
    ((k, w) :: rest).lookup j = if j = k then some w else rest.lookup j := by
  by_cases h : j = k
  · simp [List.lookup, h]
  · have hb : (j == k) = false := by simp [h]
    simp [List.lookup, hb, h]

theorem lookup_setKey_self {β : Type} :
    ∀ (l : List (Nat × β)) (i : Nat) (v : β), (setKey l i v).lookup i = some v
  | [], i, v => by simp [setKey, lookup_cons]
  | (k, w) :: rest, i, v => by
      by_cases h : k = i
      · simp [setKey, h, lookup_cons]
      · simp [setKey, h, lookup_cons, Ne.symm h, lookup_setKey_self rest i v]

theorem lookup_setKey_ne {β : Type} :
    ∀ (l : List (Nat × β)) (i j : Nat) (v : β), j ≠ i →
      (setKey l i v).lookup j = l.lookup j
  | [], i, j, v, hji => by
      simp only [setKey, lookup_cons, if_neg hji]
  | (k, w) :: rest, i, j, v, hji => by
      by_cases h : k = i
      · subst h
        simp [setKey, lookup_cons, hji]
      · simp [setKey, h, lookup_cons, lookup_setKey_ne rest i j v hji]

theorem lookup_delKey_self {β : Type} :
    ∀ (l : List (Nat × β)) (i : Nat), (delKey l i).lookup i = none
  | [], i => rfl
  | (k, w) :: rest, i => by
      by_cases h : k = i
      · simp [delKey, h, lookup_delKey_self rest i]
      · simp [delKey, h, lookup_cons, Ne.symm h, lookup_delKey_self rest i]

theorem lookup_delKey_ne {β : Type} :
    ∀ (l : List (Nat × β)) (i j : Nat), j ≠ i →
      (delKey l i).lookup j = l.lookup j
  | [], i, j, hji => rfl
  | (k, w) :: rest, i, j, hji => by
      by_cases h : k = i
      · subst h
        simp [delKey, lookup_cons, hji, lookup_delKey_ne rest k j hji]
      · simp [delKey, h, lookup_cons, lookup_delKey_ne rest i j hji]

theorem mem_setKey {β : Type} :
    ∀ (l : List (Nat × β)) (i : Nat) (v : β) (kv : Nat × β),
      kv ∈ setKey l i v → kv = (i, v) ∨ kv ∈ l
  | [], i, v, kv => by
      intro h
      simp only [setKey] at h
      exact Or.inl (List.mem_singleton.mp h)
  | (k, w) :: rest, i, v, kv => by
      intro h
      by_cases hk : k = i
      · simp only [setKey, if_pos hk] at h
        rcases List.mem_cons.mp h with rfl | hm
        · exact Or.inl rfl
        · exact Or.inr (List.mem_cons.mpr (Or.inr hm))
      · simp only [setKey, if_neg hk] at h
        rcases List.mem_cons.mp h with rfl | hm
        · exact Or.inr (List.mem_cons.mpr (Or.inl rfl))
        · rcases mem_setKey rest i v kv hm with h1 | h2
          · exact Or.inl h1
          · exact Or.inr (List.mem_cons.mpr (Or.inr h2))

theorem mem_delKey {β : Type} :
    ∀ (l : List (Nat × β)) (i : Nat) (kv : Nat × β),
      kv ∈ delKey l i → kv ∈ l ∧ kv.1 ≠ i
  | [], i, kv => by
      intro h
      simp [delKey] at h
  | (k, w) :: rest, i, kv => by
      intro h
      by_cases hk : k = i
      · simp only [delKey, if_pos hk] at h
        obtain ⟨h1, h2⟩ := mem_delKey rest i kv h
        exact ⟨List.mem_cons.mpr (Or.inr h1), h2⟩
      · simp only [delKey, if_neg hk] at h
        rcases List.mem_cons.mp h with rfl | hm
        · exact ⟨List.mem_cons.mpr (Or.inl rfl), hk⟩
        · obtain ⟨h1, h2⟩ := mem_delKey rest i kv hm
          exact ⟨List.mem_cons.mpr (Or.inr h1), h2⟩

theorem mem_of_lookup_eq_some {β : Type} :
    ∀ (l : List (Nat × β)) (j : Nat) (v : β), l.lookup j = some v → (j, v) ∈ l
  | [], j, v => by simp [List.lookup]
  | (k, w) :: rest, j, v => by
      rw [lookup_cons]
      by_cases h : j = k
      · rw [if_pos h]
        intro hv
        injection hv with hv
        subst hv
        subst h
        exact List.mem_cons.mpr (Or.inl rfl)
      · rw [if_neg h]
        intro hv
        exact List.mem_cons.mpr (Or.inr (mem_of_lookup_eq_some rest j v hv))

theorem lookup_eq_none_iff {β : Type} :
    ∀ (l : List (Nat × β)) (i : Nat), l.lookup i = none ↔ i ∉ l.map Prod.fst
  | [], i => by simp [List.lookup]
  | (k, w) :: rest, i => by
      rw [lookup_cons]
      by_cases h : i = k
      · simp [h]
      · simp [h, lookup_eq_none_iff rest i]

/-! ## store.py: IncidentStore

Errors: `store.add_event` and `store.update_status` raise
`KeyError("Incident not found")` for an unknown id; this is the only failure,
modelled as `StoreError.notFound`. Each mutating operation returns its Python
return value (the full updated incident, or the raised error) together with
the store state after the call, so that "state unchanged on failure" is a
statement about the second component. -/

inductive StoreError
  | notFound
deriving DecidableEq

structure IncidentStore where
  next_id : Nat := 1
  incidents : List (Nat × Incident) := []
deriving DecidableEq

/-- `IncidentStore.create_incident`: assigns the next id, seeds the timeline
with one system event recording creation, and stores the incident.
`sysEid` stands for the `uuid4()` event id of the seeded system event. -/
def IncidentStore.create_incident (s : IncidentStore) (title : String)
    (severity : Severity) (sysEid : String) : Incident × IncidentStore :=
  let incident_id := s.next_id
  let inc : Incident :=
    { id := incident_id, title := title, severity := severity,
      timeline := [⟨sysEid, incident_id, .system,
        .message ("Incident created: " ++ title ++ " (" ++ severity.pyFormat ++ ")")⟩] }
  (inc, { next_id := s.next_id + 1, incidents := setKey s.incidents incident_id inc })

/-- `IncidentStore.get_incident`: dict lookup, `None` when absent. -/
def IncidentStore.get_incident (s : IncidentStore) (incident_id : Nat) :
    Option Incident :=
  s.incidents.lookup incident_id

/-- The incident id is a key of the store dict. -/
def IncidentStore.hasKey (s : IncidentStore) (incident_id : Nat) : Prop :=
  incident_id ∈ s.incidents.map Prod.fst

instance (s : IncidentStore) (i : Nat) : Decidable (s.hasKey i) := by
  unfold IncidentStore.hasKey
  infer_instance

/-- `IncidentStore.add_event`: raises KeyError when the incident is unknown,
otherwise appends the event to the timeline and returns the updated incident. -/
def IncidentStore.add_event (s : IncidentStore) (incident_id : Nat)
    (event : TimelineEvent) : Except StoreError Incident × IncidentStore :=
  match s.incidents.lookup incident_id with
  | none => (.error .notFound, s)
  | some inc =>
      let inc2 := { inc with timeline := inc.timeline ++ [event] }
      (.ok inc2, { s with incidents := setKey s.incidents incident_id inc2 })

/-- `IncidentStore.update_status`: raises KeyError when the incident is
unknown, otherwise sets the status to `new_status` (unconditionally — the
source has no transition guard), appends a status_change event capturing
the old and new status, and returns the updated incident. `changeEid`
stands for the `uuid4()` id of the appended status_change event. -/
def IncidentStore.update_status (s : IncidentStore) (incident_id : Nat)
    (new_status : IncidentStatus) (changeEid : String) :
    Except StoreError Incident × IncidentStore :=
  match s.incidents.lookup incident_id with
  | none => (.error .notFound, s)
  | some inc =>
      let inc2 :=
        { inc with
          status := new_status
          timeline := inc.timeline ++
            [⟨changeEid, incident_id, .status_change, .statusChange inc.status new_status⟩] }
      (.ok inc2, { s with incidents := setKey s.incidents incident_id inc2 })

/-! ## processor.py: Stage A, Stage B and the worker loop body

The worker loop dequeues a `HumanUpdateJob`, takes the per-incident asyncio
lock and runs the job body; any exception is caught and the job abandoned.
The embedding `processJob` is the body of one iteration for one job, executed
under the lock (hence sequentially). Its second component is the list of
events the iteration appended, in order; each such event is also broadcast
to the incident room immediately after its append, so the same list is the
list of broadcast timeline events of the iteration. `tagEid` and `sumEid`
stand for the `uuid4()` ids of the two events the iteration may create. -/

structure HumanUpdateJob where
  incident_id : Nat
  human_event_id : String
  message : String
deriving DecidableEq

/-- Python substring membership `needle in haystack` on lists of characters. -/
def listContainsSub (needle : List Char) : List Char → Bool
  | [] => needle.isEmpty
  | c :: cs => needle.isPrefixOf (c :: cs) || listContainsSub needle cs

/-- Python `needle in haystack` for strings. -/
def pyContains (haystack needle : String) : Bool :=
  listContainsSub needle.toList haystack.toList

/-- Python `str.lower()`: lowercases each character (the messages involved
are ASCII, where the Python and Lean lowercase maps agree). -/
def pyLower (s : String) : String :=
  String.mk (s.toList.map Char.toLower)

/-- Python slicing `s[:n]`: the first `n` characters. -/
def pySlice (s : String) (n : Nat) : String :=
  String.mk (s.toList.take n)

/-- Stage A of `worker_loop`: the inline tag derivation. Each matched check
appends its tag to the accumulator in the fixed checking order; when nothing
matched, the tag list is exactly the singleton general. -/
def stageATags (message : String) : List String :=
  let msg_lower := pyLower message
  let tags :=
    (if pyContains msg_lower "db" || pyContains msg_lower "database"
      then ["database"] else []) ++
    (if pyContains msg_lower "timeout" then ["timeout"] else []) ++
    (if pyContains msg_lower "payment" || pyContains msg_lower "checkout"
      then ["payments"] else []) ++
    (if pyContains msg_lower "latency" then ["latency"] else [])
  if tags = [] then ["general"] else tags

/-- Stage B of `worker_loop`: the summary string is built inline as the
fixed label followed by the first 160 characters of the message. (The helper
`fallback_summary` defined in processor.py, which truncates at 140 and
appends an ellipsis, is never called from `worker_loop`.) -/
def stageBSummary (message : String) : String :=
  "Summary: " ++ pySlice message 160

/-- Body of one `worker_loop` iteration for a dequeued job, run under the
per-incident lock: re-fetch the incident; drop the job when the incident is
missing or when `str(status)` equals the literal resolved (which never holds,
see `IncidentStatus.pyStr`); otherwise append and broadcast an ai_tag event
(Stage A) and then, after the simulated delay, an ai_summary event (Stage B).
Returns the store after the iteration together with the list of events that
were appended and broadcast, in order. -/
def processJob (store : IncidentStore) (job : HumanUpdateJob)
    (tagEid sumEid : String) : IncidentStore × List TimelineEvent :=
  match store.get_incident job.incident_id with
  | none => (store, [])
  | some inc =>
      if inc.status.pyStr == "resolved" then (store, [])
      else
        let ai_tag_event : TimelineEvent :=
          ⟨tagEid, job.incident_id, .ai_tag,
            .aiTag (stageATags job.message) job.human_event_id⟩
        match store.add_event job.incident_id ai_tag_event with
        | (.error _, s1) => (s1, [])
        | (.ok _, s1) =>
            let ai_summary_event : TimelineEvent :=
              ⟨sumEid, job.incident_id, .ai_summary,
                .aiSummary (stageBSummary job.message) job.human_event_id⟩
            match s1.add_event job.incident_id ai_summary_event with
            | (.error _, s2) => (s2, [ai_tag_event])
            | (.ok _, s2) => (s2, [ai_tag_event, ai_summary_event])

/-! ## main.py handlers relevant to the claims -/

/-- PATCH status endpoint `update_incident_status`: updates the status via the
store (404 on KeyError), then — only when `str(inc.status)` equals the literal
resolved, which never holds — would append and broadcast a system event.
Returns the response, the resulting store, and the broadcast events. -/
def update_incident_status (store : IncidentStore) (incident_id : Nat)
    (req_status : IncidentStatus) (changeEid sysEid : String) :
    Except StoreError Incident × IncidentStore × List TimelineEvent :=
  match store.update_status incident_id req_status changeEid with
  | (.error e, s1) => (.error e, s1, [])
  | (.ok inc, s1) =>
      if inc.status.pyStr == "resolved" then
        let system_event : TimelineEvent :=
          ⟨sysEid, incident_id, .system, .message "Incident resolved. Processing stopped."⟩
        match s1.add_event incident_id system_event with
        | (.error e, s2) => (.error e, s2, [])
        | (.ok _, s2) => (.ok inc, s2, [system_event])
      else (.ok inc, s1, [])

/-- One iteration of the websocket receive loop of `incident_room_ws` for an
inbound client message: re-fetch the incident; reply with an error when it is
missing; reply with a system notice when `str(status)` equals the literal
resolved (never holds); otherwise append and broadcast a human_update event
and submit an enrichment job. Returns the resulting store, the appended
event when one was appended, and the submitted job when one was submitted. -/
def handleClientMessage (store : IncidentStore) (incident_id : Nat)
    (msg : String) (humanEid : String) :
    IncidentStore × Option TimelineEvent × Option HumanUpdateJob :=
  match store.get_incident incident_id with
  | none => (store, none, none)
  | some inc_latest =>
      if inc_latest.status.pyStr == "resolved" then (store, none, none)
      else
        let event : TimelineEvent := ⟨humanEid, incident_id, .human_update, .message msg⟩
        match store.add_event incident_id event with
        | (.error _, s1) => (s1, none, none)
        | (.ok _, s1) => (s1, some event, some ⟨incident_id, humanEid, msg⟩)

/-! ## websocket_manager.py: WebSocketRoomManager

Connections are identified by numeric ids; a room (Python set of websockets)
becomes a duplicate-free list. Whether `ws.send_json` raises for a given
connection during a broadcast is an input of the model, the predicate
`sendFails`. The room directory lock makes each operation atomic here. -/

structure WebSocketRoomManager where
  rooms : List (Nat × List Nat) := []
deriving DecidableEq

/-- `connect`: after the handshake, registers the connection into the room,
creating the room when absent (set add: no duplicate is introduced). -/
def WebSocketRoomManager.connect (m : WebSocketRoomManager)
    (incident_id ws : Nat) : WebSocketRoomManager :=
  match m.rooms.lookup incident_id with
  | none => { rooms := setKey m.rooms incident_id [ws] }
  | some conns =>
      { rooms := setKey m.rooms incident_id
          (if ws ∈ conns then conns else conns ++ [ws]) }

/-- `disconnect`: discards the connection from the room when the room exists;
when the room becomes empty the room itself is deleted. `set.discard` removes
the element entirely, modelled by `filter`. -/
def WebSocketRoomManager.disconnect (m : WebSocketRoomManager)
    (incident_id ws : Nat) : WebSocketRoomManager :=
  match m.rooms.lookup incident_id with
  | none => m
  | some conns =>
      let conns2 := conns.filter (fun c => !(c == ws))
      if conns2 = [] then { rooms := delKey m.rooms incident_id }
      else { rooms := setKey m.rooms incident_id conns2 }

/-- `broadcast`: snapshot the room membership under the lock; return at once
when the snapshot is empty; send to every snapshot member without the lock,
collecting the connections whose send raised; when there are dead connections,
re-acquire the lock, discard each of them from the room, and delete the room
when it became empty. Returns the resulting manager together with the
snapshot, i.e. the list of connections the message was sent to (delivery
succeeded exactly on the members where `sendFails` is false). -/
def WebSocketRoomManager.broadcast (m : WebSocketRoomManager)
    (sendFails : Nat → Bool) (incident_id : Nat) :
    WebSocketRoomManager × List Nat :=
  let sockets := (m.rooms.lookup incident_id).getD []
  if sockets = [] then (m, [])
  else
    let dead := sockets.filter sendFails
    if dead = [] then (m, sockets)
    else
      let rooms1 :=
        match m.rooms.lookup incident_id with
        | none => m.rooms
        | some conns =>
            setKey m.rooms incident_id (conns.filter (fun c => !(dead.contains c)))
      let rooms2 :=
        match rooms1.lookup incident_id with
        | some [] => delKey rooms1 incident_id
        | _ => rooms1
      ({ rooms := rooms2 }, sockets)

/-- Invariant of the room directory: no room key is bound to an empty
member set. -/
def noEmptyRooms (m : WebSocketRoomManager) : Prop :=
  ∀ kv ∈ m.rooms, kv.2 ≠ ([] : List Nat)

instance (m : WebSocketRoomManager) : Decidable (noEmptyRooms m) := by
  unfold noEmptyRooms
  infer_instance

/-! ## Concrete states used as witnesses and failing inputs -/

def emptyStore : IncidentStore := {}

/-- A store holding one freshly created, still investigating incident (id 1). -/
def demoStore : IncidentStore :=
  (emptyStore.create_incident "Checkout errors" .P2 "e0").2

def defaultIncident : Incident :=
  { id := 0, title := "", severity := .P1 }

def demoInc : Incident :=
  (demoStore.get_incident 1).getD defaultIncident

/-- A store where incident 1 was created and then resolved via update_status. -/
def resolvedStore : IncidentStore :=
  (demoStore.update_status 1 .resolved "e1").2

def resolvedInc : Incident :=
  (resolvedStore.get_incident 1).getD defaultIncident

/-- A 500-character message. -/
def msg500a : String := String.mk (List.replicate 500 'a')

/-- A 50-character message. -/
def msg50a : String := String.mk (List.replicate 50 'a')

/-! ## Claims -/

/-- C1: the claim states that a resolved incident never receives further
human_update, ai_tag or ai_summary events. The code violates it: incident 1 of
`resolvedStore` is resolved, yet the worker body for a queued job appends an
ai_tag and an ai_summary event to its timeline, and the websocket handler
appends a human_update event, because the guard compares
`str(inc.status)` (which is the string IncidentStatus.resolved for a
`(str, Enum)` member) with the bare literal resolved and therefore never
fires. This theorem evaluates the code at the failing input. -/
theorem C1_resolved_incident_still_enriched :
    (resolvedStore.get_incident 1).map Incident.status
      = some IncidentStatus.resolved ∧
    ((processJob resolvedStore ⟨1, "h1", "db is down"⟩ "t1" "s1").1.get_incident 1).map
        (fun inc => inc.timeline.map TimelineEvent.type)
      = some [.system, .status_change, .ai_tag, .ai_summary] ∧
    ((handleClientMessage resolvedStore 1 "more details" "h9").1.get_incident 1).map
        (fun inc => inc.timeline.map TimelineEvent.type)
      = some [.system, .status_change, .human_update] := by
  refine ⟨by decide, by decide, by decide⟩

/-- C5: the claim states that a job whose incident is missing or resolved at
the re-fetch is silently discarded with zero events and no broadcast. The
missing-incident half holds (second conjunct: the store is unchanged and
nothing is appended or broadcast), but the resolved half is violated: the
dead resolved-guard lets the worker append and broadcast the ai_tag and
ai_summary events (first conjunct evaluates the code at the failing input). -/
theorem C5_resolved_job_not_discarded :
    ((processJob resolvedStore ⟨1, "h2", "checkout latency rising"⟩ "t2" "s2").2.map
        TimelineEvent.type
      = [.ai_tag, .ai_summary]) ∧
    processJob resolvedStore ⟨99, "h3", "irrelevant"⟩ "t3" "s3" = (resolvedStore, []) := by
  refine ⟨by decide, by decide⟩

/-- C6: tag derivation is case-insensitive substring matching in the fixed
checking order: the sample message yields exactly database, timeout, payments,
latency in that order, and any message in which none of the six recognized
substrings (db, database, timeout, payment, checkout, latency) occurs after
lowercasing yields exactly the singleton general. -/
theorem C6_tag_derivation (msg : String)
    (h : (pyContains (pyLower msg) "db" || pyContains (pyLower msg) "database" ||
          pyContains (pyLower msg) "timeout" || pyContains (pyLower msg) "payment" ||
          pyContains (pyLower msg) "checkout" || pyContains (pyLower msg) "latency")
        = false) :
    stageATags "DB timeout on checkout-service, latency spiking"
      = ["database", "timeout", "payments", "latency"] ∧
    stageATags msg = ["general"] := by
  constructor
  · decide
  · simp only [Bool.or_eq_false_iff] at h
    obtain ⟨⟨⟨⟨⟨h1, h2⟩, h3⟩, h4⟩, h5⟩, h6⟩ := h
    simp [stageATags, h1, h2, h3, h4, h5, h6]

theorem C6_tag_derivation_witness :
    ((pyContains (pyLower "all good here") "db" ||
      pyContains (pyLower "all good here") "database" ||
      pyContains (pyLower "all good here") "timeout" ||
      pyContains (pyLower "all good here") "payment" ||
      pyContains (pyLower "all good here") "checkout" ||
      pyContains (pyLower "all good here") "latency") = false) ∧
    stageATags "all good here" = ["general"] :=
  ⟨by decide, (C6_tag_derivation "all good here" (by decide)).2⟩

/-- C3 counterexample: for the 500-character message `msg500a` the Stage-B
summary body is exactly the 160-character prefix of the message, with nothing
appended after it: there is no continuation marker. The claim, which demands
a nonempty marker appended after the bounded prefix, is therefore false at
this input. -/
theorem C3_counterexample :
    stageBSummary msg500a = "Summary: " ++ pySlice msg500a 160 ∧
    ¬ ∃ marker : String, 0 < marker.length ∧
        stageBSummary msg500a = "Summary: " ++ pySlice msg500a 160 ++ marker := by
  refine ⟨rfl, ?_⟩
  rintro ⟨m, hm, he⟩
  have hlen := congrArg String.length he
  simp only [stageBSummary, String.length_append] at hlen
  omega

/-- C3 amended: the Stage-B summary is the fixed label followed by the first
160 characters of the message, with no continuation marker: a 50-character
message appears unmodified in the body, and for a 500-character message the
body is exactly the 160-character prefix of the message. -/
theorem C3_amended_summary (m50 m500 : String)
    (h50 : m50.length = 50) (h500 : m500.length = 500) :
    stageBSummary m50 = "Summary: " ++ m50 ∧
    stageBSummary m500 = "Summary: " ++ pySlice m500 160 ∧
    (pySlice m500 160).length = 160 ∧
    (pySlice m500 160).toList = m500.toList.take 160 := by
  refine ⟨?_, rfl, ?_, rfl⟩
  · have hl : m50.toList.length ≤ 160 := by
      have : m50.toList.length = 50 := h50
      omega
    show "Summary: " ++ pySlice m50 160 = "Summary: " ++ m50
    rw [pySlice, List.take_of_length_le hl]
    rfl
  · show (m500.toList.take 160).length = 160
    have h : m500.toList.length = 500 := h500
    rw [List.length_take, h]
    omega

set_option maxRecDepth 10000 in
theorem C3_amended_summary_witness :
    (msg50a.length = 50 ∧ msg500a.length = 500) ∧
    stageBSummary msg50a = "Summary: " ++ msg50a ∧
    (pySlice msg500a 160).length = 160 :=
  ⟨⟨by decide, by decide⟩,
   (C3_amended_summary msg50a msg500a (by decide) (by decide)).1,
   (C3_amended_summary msg50a msg500a (by decide) (by decide)).2.2.1⟩

/-- C4 counterexample: resolved is not terminal. Incident 1 of
`resolvedStore` is resolved, and a subsequent update_status call with
investigating changes its stored status to investigating. -/
theorem C4_counterexample :
    (resolvedStore.get_incident 1).map Incident.status
      = some IncidentStatus.resolved ∧
    ((resolvedStore.update_status 1 IncidentStatus.investigating "sc9").2.get_incident 1).map
        Incident.status
      = some IncidentStatus.investigating := by
  refine ⟨by decide, by decide⟩

/-- C4 amended: update_status on an existing incident unconditionally sets
the status to the requested value and appends a status_change event — there is
no transition restriction, so a resolved incident can move back to
investigating or monitoring. -/
theorem C4_amended_status_unrestricted (s : IncidentStore) (i : Nat)
    (inc : Incident) (ns : IncidentStatus) (eid : String)
    (h : s.get_incident i = some inc) :
    (s.update_status i ns eid).1
      = .ok { inc with
              status := ns
              timeline := inc.timeline ++
                [⟨eid, i, .status_change, .statusChange inc.status ns⟩] } ∧
    ((s.update_status i ns eid).2.get_incident i).map Incident.status = some ns := by
  have hlook : s.incidents.lookup i = some inc := h
  constructor
  · simp [IncidentStore.update_status, hlook]
  · simp [IncidentStore.update_status, hlook, IncidentStore.get_incident,
      lookup_setKey_self]

theorem C4_amended_status_unrestricted_witness :
    resolvedStore.get_incident 1 = some resolvedInc ∧
    ((resolvedStore.update_status 1 IncidentStatus.monitoring "sc9").2.get_incident 1).map
        Incident.status
      = some IncidentStatus.monitoring :=
  ⟨by decide,
   (C4_amended_status_unrestricted resolvedStore 1 resolvedInc
      IncidentStatus.monitoring "sc9" (by decide)).2⟩

/-- C10: every incident returned by create has initial status investigating
and a timeline containing exactly one event, whose type is system; the stored
copy under the assigned id is that same incident, so no other event type and
no other status appears on a freshly created incident. -/
theorem C10_create_initial (s : IncidentStore) (title : String) (sev : Severity)
    (eid : String) :
    (s.create_incident title sev eid).1.status = IncidentStatus.investigating ∧
    (s.create_incident title sev eid).1.timeline.map TimelineEvent.type
      = [TimelineEventType.system] ∧
    (s.create_incident title sev eid).2.get_incident s.next_id
      = some (s.create_incident title sev eid).1 := by
  refine ⟨rfl, rfl, ?_⟩
  simp [IncidentStore.create_incident, IncidentStore.get_incident, lookup_setKey_self]

/-- C2: for a job whose incident exists and is not resolved at the
resolved-check, the worker iteration appends exactly two new events to that
incident and broadcasts exactly those, first an ai_tag event and then an
ai_summary event, both of whose payloads carry source_event_id equal to the
job's triggering human_update event id. (The non-resolved hypothesis is part
of the claim; the proof does not actually need it, because the resolved-guard
in the source compares `str(status)` with the bare literal and never fires
for any status.) -/
theorem C2_job_appends_tag_then_summary (s : IncidentStore)
    (job : HumanUpdateJob) (inc : Incident) (tagEid sumEid : String)
    (hgot : s.get_incident job.incident_id = some inc)
    (hnr : inc.status ≠ IncidentStatus.resolved) :
    (processJob s job tagEid sumEid).2 =
      [⟨tagEid, job.incident_id, .ai_tag,
        .aiTag (stageATags job.message) job.human_event_id⟩,
       ⟨sumEid, job.incident_id, .ai_summary,
        .aiSummary (stageBSummary job.message) job.human_event_id⟩] ∧
    ((processJob s job tagEid sumEid).1.get_incident job.incident_id).map
        Incident.timeline
      = some (inc.timeline ++
          [⟨tagEid, job.incident_id, .ai_tag,
            .aiTag (stageATags job.message) job.human_event_id⟩,
           ⟨sumEid, job.incident_id, .ai_summary,
            .aiSummary (stageBSummary job.message) job.human_event_id⟩]) := by
  have hlook : s.incidents.lookup job.incident_id = some inc := hgot
  have hchk : (inc.status.pyStr == "resolved") = false := by
    cases inc.status <;> rfl
  constructor
  · simp [processJob, IncidentStore.get_incident, IncidentStore.add_event,
      hlook, hchk, lookup_setKey_self]
  · simp [processJob, IncidentStore.get_incident, IncidentStore.add_event,
      hlook, hchk, lookup_setKey_self]

theorem C2_job_appends_tag_then_summary_witness :
    (demoStore.get_incident 1 = some demoInc ∧
      demoInc.status ≠ IncidentStatus.resolved) ∧
    (processJob demoStore ⟨1, "h1", "payment db slow"⟩ "t1" "s1").2 =
      [⟨"t1", 1, .ai_tag, .aiTag (stageATags "payment db slow") "h1"⟩,
       ⟨"s1", 1, .ai_summary, .aiSummary (stageBSummary "payment db slow") "h1"⟩] :=
  ⟨⟨by decide, by decide⟩,
   (C2_job_appends_tag_then_summary demoStore ⟨1, "h1", "payment db slow"⟩
      demoInc "t1" "s1" (by decide) (by decide)).1⟩

/-- C9: get, append and updateStatus fail with NotFound exactly when the
incident id is not a key of the store; a failing mutating call leaves the
store unchanged; and on an existing incident each mutating call returns the
resulting full incident (with its updated timeline), which is also what the
store then holds. -/
theorem C9_store_error_semantics (s : IncidentStore) (i : Nat)
    (e : TimelineEvent) (ns : IncidentStatus) (eid : String) :
    (s.get_incident i = none ↔ ¬ s.hasKey i) ∧
    ((s.add_event i e).1 = .error .notFound ↔ ¬ s.hasKey i) ∧
    ((s.update_status i ns eid).1 = .error .notFound ↔ ¬ s.hasKey i) ∧
    ((s.add_event i e).1 = .error .notFound → (s.add_event i e).2 = s) ∧
    ((s.update_status i ns eid).1 = .error .notFound →
      (s.update_status i ns eid).2 = s) ∧
    (∀ inc, s.get_incident i = some inc →
      (s.add_event i e).1 = .ok { inc with timeline := inc.timeline ++ [e] } ∧
      (s.add_event i e).2.get_incident i
        = some { inc with timeline := inc.timeline ++ [e] } ∧
      (s.update_status i ns eid).1
        = .ok { inc with
                status := ns
                timeline := inc.timeline ++
                  [⟨eid, i, .status_change, .statusChange inc.status ns⟩] } ∧
      (s.update_status i ns eid).2.get_incident i
        = some { inc with
                 status := ns
                 timeline := inc.timeline ++
                   [⟨eid, i, .status_change, .statusChange inc.status ns⟩] }) := by
  rcases hlook : s.incidents.lookup i with _ | inc0
  · have hnk : ¬ s.hasKey i := (lookup_eq_none_iff s.incidents i).mp hlook
    refine ⟨?_, ?_, ?_, ?_, ?_, ?_⟩
    · simp [IncidentStore.get_incident, hlook, hnk]
    · simp [IncidentStore.add_event, hlook, hnk]
    · simp [IncidentStore.update_status, hlook, hnk]
    · intro _; simp [IncidentStore.add_event, hlook]
    · intro _; simp [IncidentStore.update_status, hlook]
    · intro inc hsome
      rw [IncidentStore.get_incident, hlook] at hsome
      cases hsome
  · have hk : s.hasKey i := by
      have : ¬ s.incidents.lookup i = none := by simp [hlook]
      have := (not_iff_not.mpr (lookup_eq_none_iff s.incidents i)).mp this
      simpa [IncidentStore.hasKey] using this
    refine ⟨?_, ?_, ?_, ?_, ?_, ?_⟩
    · simp [IncidentStore.get_incident, hlook, hk]
    · simp [IncidentStore.add_event, hlook, hk]
    · simp [IncidentStore.update_status, hlook, hk]
    · intro hcontra
      rw [IncidentStore.add_event] at hcontra
      simp [hlook] at hcontra
    · intro hcontra
      rw [IncidentStore.update_status] at hcontra
      simp [hlook] at hcontra
    · intro inc hsome
      rw [IncidentStore.get_incident, hlook] at hsome
      cases hsome
      refine ⟨?_, ?_, ?_, ?_⟩
      · simp [IncidentStore.add_event, hlook]
      · simp [IncidentStore.add_event, hlook, IncidentStore.get_incident,
          lookup_setKey_self]
      · simp [IncidentStore.update_status, hlook]
      · simp [IncidentStore.update_status, hlook, IncidentStore.get_incident,
          lookup_setKey_self]

def wEvent : TimelineEvent := ⟨"w1", 1, .human_update, .message "a note"⟩

theorem C9_store_error_semantics_witness :
    resolvedStore.get_incident 1 = some resolvedInc ∧
    (resolvedStore.add_event 1 wEvent).2.get_incident 1
      = some { resolvedInc with timeline := resolvedInc.timeline ++ [wEvent] } :=
  ⟨by decide,
   ((C9_store_error_semantics resolvedStore 1 wEvent IncidentStatus.monitoring
      "e9").2.2.2.2.2 resolvedInc (by decide)).2.1⟩

/-- The list of connections a broadcast sends to is exactly the membership
snapshot of the target room taken at the start of the call. -/
theorem broadcast_sent_eq (m : WebSocketRoomManager) (f : Nat → Bool) (i : Nat) :
    (m.broadcast f i).2 = (m.rooms.lookup i).getD [] := by
  by_cases h0 : (m.rooms.lookup i).getD [] = []
  · simp [WebSocketRoomManager.broadcast, h0]
  · by_cases h1 : ((m.rooms.lookup i).getD []).filter f = []
    · simp [WebSocketRoomManager.broadcast, h0, h1]
    · simp [WebSocketRoomManager.broadcast, h0, h1]

/-- A room member whose send fails during a broadcast is no longer a member
of that room afterwards. -/
theorem broadcast_removes_failed (m : WebSocketRoomManager) (f : Nat → Bool)
    (i c : Nat) (hc : c ∈ (m.rooms.lookup i).getD []) (hf : f c = true) :
    c ∉ (((m.broadcast f i).1.rooms.lookup i).getD []) := by
  rcases hlook : m.rooms.lookup i with _ | conns
  · rw [hlook] at hc
    simp at hc
  · rw [hlook] at hc
    simp only [Option.getD_some] at hc
    have hne : conns ≠ [] := by
      rintro rfl
      simp at hc
    have hdc : c ∈ conns.filter f := List.mem_filter.mpr ⟨hc, hf⟩
    have hdne : conns.filter f ≠ [] := by
      intro h
      rw [h] at hdc
      simp at hdc
    have hpc : ((conns.filter f).contains c) = true := List.elem_eq_true_of_mem hdc
    rcases hsplit : conns.filter (fun x => !((conns.filter f).contains x))
      with _ | ⟨x, xs⟩
    · simp only [WebSocketRoomManager.broadcast, hlook, Option.getD_some,
        if_neg hne, if_neg hdne, hsplit, lookup_setKey_self, lookup_delKey_self]
      simp
    · simp only [WebSocketRoomManager.broadcast, hlook, Option.getD_some,
        if_neg hne, if_neg hdne, hsplit, lookup_setKey_self]
      intro hmem
      rw [← hsplit] at hmem
      have hp := (List.mem_filter.mp hmem).2
      rw [hpc] at hp
      simp at hp

/-- C7: a broadcast sends the message to exactly the connections registered
in room `i` at the moment the membership snapshot is taken (hence to no
connection registered only under a different incident); every snapshot member
whose delivery fails is removed from the room and therefore absent from the
snapshot of every subsequent broadcast to that room; and a broadcast to a
nonexistent or empty room returns without error and changes nothing. -/
theorem C7_broadcast_delivery (m : WebSocketRoomManager) (f : Nat → Bool)
    (i : Nat) :
    (m.broadcast f i).2 = (m.rooms.lookup i).getD [] ∧
    (∀ c, c ∈ (m.broadcast f i).2 → f c = true →
      c ∉ (((m.broadcast f i).1.rooms.lookup i).getD [])) ∧
    (∀ g c, c ∈ (m.broadcast f i).2 → f c = true →
      c ∉ ((m.broadcast f i).1.broadcast g i).2) ∧
    ((m.rooms.lookup i).getD [] = [] → m.broadcast f i = (m, [])) := by
  refine ⟨broadcast_sent_eq m f i, ?_, ?_, ?_⟩
  · intro c hc hf
    rw [broadcast_sent_eq] at hc
    exact broadcast_removes_failed m f i c hc hf
  · intro g c hc hf
    rw [broadcast_sent_eq] at hc
    rw [broadcast_sent_eq]
    exact broadcast_removes_failed m f i c hc hf
  · intro h0
    simp [WebSocketRoomManager.broadcast, h0]

def demoMgr : WebSocketRoomManager :=
  { rooms := [(1, [10, 11]), (2, [20])] }

theorem C7_broadcast_delivery_witness :
    (demoMgr.broadcast (fun c => c == 11) 1).2 = [10, 11] ∧
    11 ∉ (((demoMgr.broadcast (fun c => c == 11) 1).1.rooms.lookup 1).getD []) := by
  have h := C7_broadcast_delivery demoMgr (fun c => c == 11) 1
  exact ⟨by decide, h.2.1 11 (by decide) (by decide)⟩

/-- C8: the room directory never holds an empty room: connect, disconnect and
the dead-connection pruning pass of broadcast all preserve the invariant that
every room key is bound to a nonempty member set, and the initial directory
satisfies it trivially. -/
theorem C8_no_empty_rooms (m : WebSocketRoomManager) (hm : noEmptyRooms m)
    (i c : Nat) (f : Nat → Bool) :
    noEmptyRooms (m.connect i c) ∧
    noEmptyRooms (m.disconnect i c) ∧
    noEmptyRooms (m.broadcast f i).1 ∧
    noEmptyRooms ({ rooms := [] } : WebSocketRoomManager) := by
  refine ⟨?_, ?_, ?_, ?_⟩
  · intro kv hkv
    rcases hlook : m.rooms.lookup i with _ | conns
    · simp only [WebSocketRoomManager.connect, hlook] at hkv
      rcases mem_setKey _ _ _ _ hkv with rfl | hold
      · simp
      · exact hm kv hold
    · simp only [WebSocketRoomManager.connect, hlook] at hkv
      rcases mem_setKey _ _ _ _ hkv with rfl | hold
      · have hconns : conns ≠ [] := hm (i, conns) (mem_of_lookup_eq_some _ _ _ hlook)
        by_cases hmemc : c ∈ conns
        · simpa [hmemc] using hconns
        · simp [hmemc]
      · exact hm kv hold
  · intro kv hkv
    rcases hlook : m.rooms.lookup i with _ | conns
    · simp only [WebSocketRoomManager.disconnect, hlook] at hkv
      exact hm kv hkv
    · by_cases hnil : conns.filter (fun x => !(x == c)) = []
      · simp only [WebSocketRoomManager.disconnect, hlook, hnil, if_pos] at hkv
        exact hm kv (mem_delKey _ _ _ hkv).1
      · simp only [WebSocketRoomManager.disconnect, hlook, if_neg hnil] at hkv
        rcases mem_setKey _ _ _ _ hkv with rfl | hold
        · exact hnil
        · exact hm kv hold
  · intro kv hkv
    by_cases h0 : (m.rooms.lookup i).getD [] = []
    · simp only [WebSocketRoomManager.broadcast, if_pos h0] at hkv
      exact hm kv hkv
    · by_cases h1 : ((m.rooms.lookup i).getD []).filter f = []
      · simp only [WebSocketRoomManager.broadcast, if_neg h0, if_pos h1] at hkv
        exact hm kv hkv
      · rcases hlook : m.rooms.lookup i with _ | conns
        · rw [hlook] at h0
          simp at h0
        · rw [hlook] at h0 h1
          simp only [Option.getD_some] at h0 h1
          rcases hsplit : conns.filter (fun x => !((conns.filter f).contains x))
            with _ | ⟨x, xs⟩
          · simp only [WebSocketRoomManager.broadcast, hlook, Option.getD_some,
              if_neg h0, if_neg h1, hsplit, lookup_setKey_self] at hkv
            obtain ⟨hmem, hkey⟩ := mem_delKey _ _ _ hkv
            rcases mem_setKey _ _ _ _ hmem with rfl | hold
            · exact absurd rfl hkey
            · exact hm kv hold
          · simp only [WebSocketRoomManager.broadcast, hlook, Option.getD_some,
              if_neg h0, if_neg h1, hsplit, lookup_setKey_self] at hkv
            rcases mem_setKey _ _ _ _ hkv with rfl | hold
            · exact List.cons_ne_nil x xs
            · exact hm kv hold
  · intro kv hkv
    simp at hkv

theorem C8_no_empty_rooms_witness :
    noEmptyRooms demoMgr ∧
    noEmptyRooms (demoMgr.disconnect 1 10) ∧
    noEmptyRooms (demoMgr.broadcast (fun c => c == 11) 1).1 := by
  have h := C8_no_empty_rooms demoMgr (by decide) 1 10 (fun c => c == 11)
  exact ⟨by decide, h.2.1, h.2.2.1⟩

end IncidentBackend
